/-
Verification of the VoiceTranslator repository's session state machine,
silence trimming, capture buffer and SoundPad playback layer.

The definitions below are shallow embeddings of the Python source:
  * `AppState`, `changeState`, `onKeyboardEvent`, `processAudio`,
    `audio_callback` model `src/core/voice_translator.py`;
  * `trimSilenceFromEnd` models `_trim_silence_from_end`;
  * the `SP`-prefixed definitions model `src/core/soundpad_manager.py`.
Machine floats are modelled as exact rationals; blocking calls
(`time.sleep`, IPC round-trips, subprocess launches) are recorded in an
explicit event trace, and log lines relevant to the claims are recorded
as log events.  All functions are total: every Python exception that the
source catches is modelled by an explicit outcome flag in the
environment record, so "never raises" corresponds to totality of the
embedded function.
-/
import Mathlib

namespace VoiceTranslator

/-- The four states of the application (`AppState` in voice_translator.py). -/
inductive AppState where
  | idle
  | recording
  | processing
  | playing
  deriving Repr, DecidableEq

/-- An audio block: the chunk of mono samples delivered by one microphone
callback invocation.  Samples are modelled as exact rationals. -/
abbrev AudioBlock := List ℚ

/-- The mutable fields of `VoiceTranslator` that the claims touch.
`loopRunning` models `hasattr(self, 'loop') and self.loop.is_running()`. -/
structure Session where
  state : AppState
  audioBuffer : List AudioBlock
  hotkeyPressedTime : ℚ
  lastReleaseTime : ℚ
  modelLoading : Bool
  modelLoadFailed : Bool
  loopRunning : Bool
  deriving Repr, DecidableEq

/-- `HOTKEY_MIN_PRESS_DURATION = 0.1` (constants.py). -/
def minPressDuration : ℚ := 1/10

/-- `HOTKEY_DEBOUNCE_DELAY = 0.05` (constants.py). -/
def debounceDelay : ℚ := 1/20

/-- `AUDIO_SAMPLE_RATE = 16000` (constants.py). -/
def sampleRate : ℕ := 16000

/-- `AUDIO_MIN_DURATION = 0.8` (constants.py). -/
def minDuration : ℚ := 4/5

/-- `_change_state(expected_state, new_state)`: atomically replaces the
state by `new` when the current state equals `expected`, returning
whether the swap happened together with the session after the call. -/
def changeState (expected new : AppState) (s : Session) : Bool × Session :=
  if s.state = expected then (true, { s with state := new }) else (false, s)

/-- The two edges delivered by the `keyboard` hook. -/
inductive KeyEventType where
  | down
  | up
  deriving Repr, DecidableEq

/-- `_on_keyboard_event`: the single handler for hotkey press and release.
`now` models `time.time()`.  The returned Boolean records whether
`process_audio` was scheduled on the event loop
(`asyncio.run_coroutine_threadsafe`). -/
def onKeyboardEvent (ev : KeyEventType) (now : ℚ) (s : Session) :
    Session × Bool :=
  match ev with
  | .down =>
    if now - s.lastReleaseTime > debounceDelay ∧
        ¬s.modelLoading ∧ ¬s.modelLoadFailed then
      let r := changeState .idle .recording s
      if r.1 then
        ({ r.2 with hotkeyPressedTime := now, audioBuffer := [] }, false)
      else (r.2, false)
    else (s, false)
  | .up =>
    let pressDuration := now - s.hotkeyPressedTime
    let s1 := { s with lastReleaseTime := now }
    if s1.state = .recording then
      if pressDuration ≥ minPressDuration then
        let r := changeState .recording .processing s1
        if r.1 then
          if r.2.loopRunning then (r.2, true)
          else ((changeState .processing .idle r.2).2, false)
        else (r.2, false)
      else
        let r := changeState .recording .idle s1
        if r.1 then ({ r.2 with audioBuffer := [] }, false)
        else (r.2, false)
    else (s1, false)

/-- `energy = np.abs(audio)` in `_trim_silence_from_end`. -/
def energyOf (audio : List ℚ) : List ℚ := audio.map (fun x => |x|)

/-- `threshold = np.max(energy) * 0.05` in `_trim_silence_from_end`.
`np.max` over the (non-empty) energy array is modelled by `foldr max 0`,
which agrees with it because every energy value is non-negative. -/
def peakThreshold (audio : List ℚ) : ℚ :=
  (energyOf audio).foldr max 0 * (5/100)

/-- The backward scan `for i in range(len(energy) - 1, -1, -1)` of
`_trim_silence_from_end`: returns the largest index `< n` whose energy
exceeds the threshold, scanning from `n - 1` downward. -/
def lastExceedingAux (energy : List ℚ) (threshold : ℚ) : ℕ → Option ℕ
  | 0 => none
  | i + 1 =>
    if energy.getD i 0 > threshold then some i
    else lastExceedingAux energy threshold i

/-- `_trim_silence_from_end(audio, sample_rate)`.  The Python margins
`int(0.2 * sample_rate)` and `int(sample_rate * 0.1)` are modelled by the
natural-number divisions `sampleRate / 5` and `sampleRate / 10`: for every
sample rate below 2^50 the IEEE-754 products `0.2 * sr` and `sr * 0.1` lie
strictly between the exact value and the next integer, so truncation
yields exactly these floors. -/
def trimSilenceFromEnd (audio : List ℚ) (sampleRate : ℕ) : List ℚ :=
  if audio = [] then audio
  else
    match lastExceedingAux (energyOf audio) (peakThreshold audio)
        audio.length with
    | some i => audio.take (min (i + sampleRate / 5) audio.length)
    | none => audio.take (sampleRate / 10)

/-- A concrete session used to instantiate witnesses. -/
def exampleIdleSession : Session :=
  { state := .idle, audioBuffer := [[1]], hotkeyPressedTime := 0,
    lastReleaseTime := 0, modelLoading := false, modelLoadFailed := false,
    loopRunning := true }

/-- The claim-side description of an energetic sample, following the
spec's words: index `i` of the waveform holds a sample whose magnitude
exceeds 5% of the recording's peak magnitude. -/
def exceedsThreshold (audio : List ℚ) (i : ℕ) : Prop :=
  (energyOf audio).getD i 0 > peakThreshold audio

/-- Log lines of `process_audio` and `audio_callback` that the claims
mention. -/
inductive LogEvent where
  | warnNotProcessing
  | warnEmptyBuffer
  | infoTooShort
  | infoNoSpeech
  | errTranslationFailed
  | errTTSFailed
  | errPlaybackFailed
  | errPlaybackTimeout
  | errPlaybackError
  | errProcessing
  | debugTempCleaned
  | warnRecordingLimit
  deriving Repr, DecidableEq

/-- Point inside the `try` block of `process_audio` at which an unexpected
exception (caught by the blanket `except` clause) can be raised. -/
inductive RaiseStage where
  | flattenTrim
  | transcribe
  | translate
  | tts
  | playbackSetup
  deriving Repr, DecidableEq

/-- Result of awaiting the playback future in `process_audio`. -/
inductive PlayOutcome where
  | success
  | failed
  | timeout
  | raised
  deriving Repr, DecidableEq

/-- Environment of one `process_audio` run: the outcome of each
collaborator stage.  An exception raised inside the `try` block and caught
by the blanket `except` clause is modelled by `raiseAt`. -/
structure PipeEnv where
  raiseAt : Option RaiseStage
  transcription : Option String
  translation : String
  ttsFile : Option String
  playOutcome : PlayOutcome
  tempExists : Bool

/-- The `try` block of `process_audio` (voice_translator.py lines
472-538): returns the session after the block, the log lines emitted, and
whether an exception escaped to the blanket `except` clause. -/
def processAudioTry (env : PipeEnv) (s : Session) :
    Session × List LogEvent × Bool :=
  if s.audioBuffer = [] then (s, [.warnEmptyBuffer], false)
  else
    let audio := s.audioBuffer.flatten
    let s1 := { s with audioBuffer := [] }
    if env.raiseAt = some .flattenTrim then (s1, [], true)
    else
      let trimmed := trimSilenceFromEnd audio sampleRate
      let duration : ℚ := (trimmed.length : ℚ) / (sampleRate : ℚ)
      if duration < minDuration then (s1, [.infoTooShort], false)
      else if env.raiseAt = some .transcribe then (s1, [], true)
      else
        match env.transcription with
        | none => (s1, [.infoNoSpeech], false)
        | some _ =>
          if env.raiseAt = some .translate then
            (s1, [.errTranslationFailed], false)
          else if env.raiseAt = some .tts then (s1, [], true)
          else
            match env.ttsFile with
            | none => (s1, [.errTTSFailed], false)
            | some _ =>
              let s2 := { s1 with state := .playing }
              if env.raiseAt = some .playbackSetup then (s2, [], true)
              else
                let playLogs :=
                  match env.playOutcome with
                  | .success => ([] : List LogEvent)
                  | .failed => [LogEvent.errPlaybackFailed]
                  | .timeout => [LogEvent.errPlaybackTimeout]
                  | .raised => [LogEvent.errPlaybackError]
                let cleanLogs :=
                  if env.tempExists then [LogEvent.debugTempCleaned] else []
                (s2, playLogs ++ cleanLogs, false)

/-- `process_audio`: the guard for being invoked outside `Processing`
(warn and force the state back to `Idle` via the compare-and-set), then
the `try` block, the blanket `except` logging, and the `finally` clause
that always restores `Idle`. -/
def processAudio (env : PipeEnv) (s : Session) : Session × List LogEvent :=
  if s.state ≠ AppState.processing then
    ((changeState s.state .idle s).2, [.warnNotProcessing])
  else
    let r := processAudioTry env s
    ({ r.1 with state := .idle },
      r.2.1 ++ if r.2.2 then [LogEvent.errProcessing] else [])

/-- `AUDIO_MAX_RECORDING_DURATION = 60` (constants.py). -/
def maxRecordingDuration : ℕ := 60

/-- `AUDIO_BLOCKSIZE = 1024` (constants.py). -/
def blocksize : ℕ := 1024

/-- `self._max_buffer_blocks = int((60 * 16000) / 1024)` = 937: the exact
Python float quotient 937.5 truncates to the natural-number division. -/
def maxBufferBlocks : ℕ := maxRecordingDuration * sampleRate / blocksize

/-- `audio_callback`: appends a copy of the incoming block while the state
is exactly `recording` and the buffer is below the block limit; logs the
recording-limit warning when the buffer holds exactly the limit.  The
returned list holds the log lines of this invocation. -/
def audioCallback (blk : AudioBlock) (s : Session) :
    Session × List LogEvent :=
  if s.state = AppState.recording then
    if s.audioBuffer.length < maxBufferBlocks then
      ({ s with audioBuffer := s.audioBuffer ++ [blk] }, [])
    else if s.audioBuffer.length = maxBufferBlocks then
      (s, [.warnRecordingLimit])
    else (s, [])
  else (s, [])

/-- Feeds a sequence of microphone blocks through `audio_callback`,
counting the recording-limit warnings emitted along the way. -/
def runCallbacks : List AudioBlock → Session → Session × ℕ
  | [], s => (s, 0)
  | b :: bs, s =>
    let r := audioCallback b s
    let rest := runCallbacks bs r.1
    (rest.1, r.2.count .warnRecordingLimit + rest.2)

/-- A concrete session at the start of a recording, used by witnesses and
counterexamples. -/
def exampleRecordingSession : Session :=
  { state := .recording, audioBuffer := [], hotkeyPressedTime := 0,
    lastReleaseTime := 0, modelLoading := false, modelLoadFailed := false,
    loopRunning := true }

/-- Observable events of the SoundPad layer: IPC interactions with the
external player process, subprocess launches, sleeps, and the log line
claim C9 mentions.  `connect` is a `SoundpadRemoteControl()` construction
attempt, `liveQuery` is `get_sound_file_count()`. -/
inductive SPEvent where
  | connect
  | liveQuery
  | stopCmd
  | spawnProc
  | addSound
  | playCmd
  | removeEntry
  | sleep (seconds : ℚ)
  | logMissingPath
  deriving Repr, DecidableEq

/-- Configuration and environment of `SoundpadManager`: the cached config
values read in `__init__`, the import flag, and the outcome of each
external interaction, each modelled as a fixed Boolean (so a failing probe
fails on every retry). -/
structure SPConfig where
  available : Bool
  cfgEnabled : Bool
  autoStart : Bool
  soundpadPathExists : Bool
  forceStopBeforePlay : Bool
  playbackDelay : ℚ
  maxRetryAttempts : ℕ
  connectOk : Bool
  responsive : Bool
  stopCmdOk : Bool
  processRunning : Bool
  spawnOk : Bool
  shutdown : Bool
  fileExists : Bool
  addSoundOk : Bool
  playOk : Bool
  cleanupAfterPlay : Bool
  duration : ℚ
  playbackTimeout : ℚ

/-- `self._enabled` after `__init__`: the `enabled` config flag, forced
off when the `soundpad_control` import failed. -/
def SPConfig.enabled (c : SPConfig) : Bool := c.available && c.cfgEnabled

/-- `_verify_connection(max_attempts, retry_delay)`: per attempt, build a
fresh connection and issue the liveness query; after a failed query it
sleeps before every attempt but the last. -/
def verifyConnection (c : SPConfig) (retryDelay : ℚ) :
    ℕ → Bool × List SPEvent
  | 0 => (false, [])
  | n + 1 =>
    if c.connectOk then
      if c.responsive then (true, [.connect, .liveQuery])
      else
        let rest := verifyConnection c retryDelay n
        (rest.1, [SPEvent.connect, SPEvent.liveQuery] ++
          (if n ≠ 0 then [SPEvent.sleep retryDelay] else []) ++ rest.2)
    else
      let rest := verifyConnection c retryDelay n
      (rest.1, SPEvent.connect :: rest.2)

/-- `stop_playback()`: open a connection and, if that worked, issue the
stop command. -/
def stopPlayback (c : SPConfig) : Bool × List SPEvent :=
  if c.connectOk then (c.stopCmdOk, [.connect, .stopCmd])
  else (false, [.connect])

/-- `ensure_running()`: shutdown and enabled guards, fast single-attempt
probe, process-table scan with a 5-attempt probe, auto-start guard,
executable-path check (logging the missing path), spawn and a 10-attempt
probe.  A `Popen` failure is caught and yields `False`. -/
def ensureRunning (c : SPConfig) : Bool × List SPEvent :=
  if c.shutdown then (false, [])
  else if ¬c.enabled then (false, [])
  else
    let v1 := verifyConnection c (1/2) 1
    if v1.1 then (true, v1.2)
    else if c.processRunning then
      let v5 := verifyConnection c 1 5
      (v5.1, v1.2 ++ v5.2)
    else if ¬c.autoStart then (false, v1.2)
    else if ¬c.soundpadPathExists then (false, v1.2 ++ [.logMissingPath])
    else if c.spawnOk then
      let v10 := verifyConnection c 1 10
      (v10.1, v1.2 ++ [SPEvent.spawnProc] ++ v10.2)
    else (false, v1.2 ++ [SPEvent.spawnProc])

/-- `_play_audio_file_sync(path)`: shutdown check first, then file
existence, `ensure_running`, a fresh connection, the add-sound sequence
(count query, add, 0.15 s sleep, count query), the play command, the
completion sleep `min(duration + 0.5, playback_timeout)` and optional
cleanup.  Failures inside the add-sound helper are collapsed into
`addSoundOk`. -/
def playAudioFileSync (c : SPConfig) : Bool × List SPEvent :=
  if c.shutdown then (false, [])
  else if ¬c.fileExists then (false, [])
  else
    let er := ensureRunning c
    if ¬er.1 then (false, er.2)
    else if ¬c.connectOk then (false, er.2 ++ [SPEvent.connect])
    else if ¬c.addSoundOk then
      (false, er.2 ++ [SPEvent.connect, SPEvent.liveQuery, SPEvent.addSound,
        SPEvent.sleep (3/20), SPEvent.liveQuery])
    else if c.playOk then
      (true, er.2 ++ [SPEvent.connect, SPEvent.liveQuery, SPEvent.addSound,
        SPEvent.sleep (3/20), SPEvent.liveQuery, SPEvent.playCmd,
        SPEvent.sleep (min (c.duration + 1/2) c.playbackTimeout)] ++
        (if c.cleanupAfterPlay then
          [SPEvent.removeEntry, SPEvent.sleep (1/10)] else []))
    else
      (false, er.2 ++ [SPEvent.connect, SPEvent.liveQuery, SPEvent.addSound,
        SPEvent.sleep (3/20), SPEvent.liveQuery, SPEvent.playCmd] ++
        (if c.cleanupAfterPlay then [SPEvent.removeEntry] else []))

/-- `_play_audio_file_with_retry(path, attempt, max_attempts)`: despite
its name and its unused `attempt`/`max_attempts` parameters it performs a
single attempt — the optional force-stop of the previous playback, the
fixed pre-playback delay, then one synchronous playback. -/
def playAudioFileWithRetry (c : SPConfig) : Bool × List SPEvent :=
  let st := if c.forceStopBeforePlay then (stopPlayback c).2 else []
  let dl :=
    if c.playbackDelay > 0 then [SPEvent.sleep c.playbackDelay] else []
  let r := playAudioFileSync c
  (r.1, st ++ dl ++ r.2)

/-- Return value of `play_audio_file`: a plain Boolean, a submitted future
(recording the Boolean it eventually resolves to), or Python's implicit
`None` when the retry loop body never runs. -/
inductive PlayRet where
  | bool (b : Bool)
  | future (b : Bool)
  | noneRet
  deriving Repr, DecidableEq

/-- The `for attempt in range(max_retries)` loop of `play_audio_file`:
the body submits or runs one attempt and returns unconditionally, so only
the first iteration ever executes; with zero iterations the function
falls through, implicitly returning `None`. -/
def playLoop (c : SPConfig) (asyncMode : Bool) : ℕ → PlayRet × List SPEvent
  | 0 => (.noneRet, [])
  | _ + 1 =>
    let r := playAudioFileWithRetry c
    if asyncMode then (.future r.1, r.2) else (.bool r.1, r.2)

/-- `play_audio_file(path, async_mode)`: the disabled guard returns the
plain Boolean `False` before the retry loop. -/
def playAudioFile (c : SPConfig) (asyncMode : Bool) :
    PlayRet × List SPEvent :=
  if ¬c.enabled then (.bool false, [])
  else playLoop c asyncMode c.maxRetryAttempts


/-- A concrete SoundPad environment: enabled, healthy player, default
config values, but the audio file to play does not exist (so every
playback attempt fails). -/
def exampleSPConfig : SPConfig :=
  { available := true, cfgEnabled := true, autoStart := true,
    soundpadPathExists := true, forceStopBeforePlay := true,
    playbackDelay := 1/5, maxRetryAttempts := 3, connectOk := true,
    responsive := true, stopCmdOk := true, processRunning := false,
    spawnOk := true, shutdown := false, fileExists := false,
    addSoundOk := true, playOk := true, cleanupAfterPlay := true,
    duration := 1, playbackTimeout := 10 }

/-- `exampleSPConfig` after shutdown has been requested, with the audio
file present. -/
def c7SPConfig : SPConfig :=
  { exampleSPConfig with shutdown := true, fileExists := true }

/-- `exampleSPConfig` with the player unresponsive and the executable
path missing. -/
def c9SPConfig : SPConfig :=
  { exampleSPConfig with responsive := false, soundpadPathExists := false }

/-- `exampleSPConfig` with the player-control library import failed. -/
def c10SPConfig : SPConfig :=
  { exampleSPConfig with available := false }

/-- `C1`: the compare-and-set primitive `_change_state(expected, new)` sets
the state to `new` and returns `true` exactly when the current state equals
`expected`, and otherwise leaves the session unchanged and returns `false`;
consequently a second hotkey-down with no intervening hotkey-up (the first
down having left the session in `recording`) changes nothing — in
particular it never re-enters `recording`. -/
theorem c1_change_state_cas :
    (∀ (expected new : AppState) (s : Session),
      (s.state = expected →
        changeState expected new s = (true, { s with state := new })) ∧
      (s.state ≠ expected → changeState expected new s = (false, s))) ∧
    (∀ (t1 t2 : ℚ) (s : Session),
      ((onKeyboardEvent .down t1 s).1).state = .recording →
      onKeyboardEvent .down t2 ((onKeyboardEvent .down t1 s).1) =
        ((onKeyboardEvent .down t1 s).1, false)) := by
  constructor
  · intro expected new s
    constructor
    · intro h
      simp [changeState, h]
    · intro h
      simp [changeState, h]
  · intro t1 t2 s hrec
    set s1 := (onKeyboardEvent .down t1 s).1 with hs1
    have hstate : s1.state = .recording := hrec
    have hne : s1.state ≠ .idle := by
      rw [hstate]; intro h; cases h
    have hcs : changeState .idle .recording s1 = (false, s1) := by
      simp [changeState, hne]
    unfold onKeyboardEvent
    simp [hcs]

/-- Witness for `c1_change_state_cas` at concrete inputs. -/
theorem c1_change_state_cas_witness :
    (({ state := .idle, audioBuffer := [], hotkeyPressedTime := 0,
        lastReleaseTime := 0, modelLoading := false,
        modelLoadFailed := false, loopRunning := true } : Session).state =
      .idle →
      changeState .idle .recording
        { state := .idle, audioBuffer := [], hotkeyPressedTime := 0,
          lastReleaseTime := 0, modelLoading := false,
          modelLoadFailed := false, loopRunning := true } =
        (true, { state := .recording, audioBuffer := [],
                 hotkeyPressedTime := 0, lastReleaseTime := 0,
                 modelLoading := false, modelLoadFailed := false,
                 loopRunning := true })) ∧
    (((onKeyboardEvent .down 1
        { state := .idle, audioBuffer := [], hotkeyPressedTime := 0,
          lastReleaseTime := 0, modelLoading := false,
          modelLoadFailed := false, loopRunning := true }).1).state =
        .recording →
      onKeyboardEvent .down 2
        ((onKeyboardEvent .down 1
          { state := .idle, audioBuffer := [], hotkeyPressedTime := 0,
            lastReleaseTime := 0, modelLoading := false,
            modelLoadFailed := false, loopRunning := true }).1) =
        ((onKeyboardEvent .down 1
          { state := .idle, audioBuffer := [], hotkeyPressedTime := 0,
            lastReleaseTime := 0, modelLoading := false,
            modelLoadFailed := false, loopRunning := true }).1, false)) :=
  ⟨(c1_change_state_cas.1 .idle .recording _).1,
   c1_change_state_cas.2 1 2 _⟩

/-- Helper: on hotkey-down from `idle` with the debounce window elapsed and
the model ready, the handler enters `recording`, stamps the press time and
clears the buffer. -/
theorem onKeyDown_enter (now : ℚ) (s : Session) (hidle : s.state = .idle)
    (hdeb : now - s.lastReleaseTime > debounceDelay)
    (hml : s.modelLoading = false) (hmf : s.modelLoadFailed = false) :
    onKeyboardEvent .down now s =
      ({ s with state := .recording, hotkeyPressedTime := now,
                audioBuffer := [] }, false) := by
  unfold onKeyboardEvent
  simp [changeState, hidle, hdeb, hml, hmf]

/-- Helper: on hotkey-up while `recording` with a press shorter than the
minimum, the handler clears the buffer, returns to `idle` and schedules
nothing. -/
theorem onKeyUp_short (now : ℚ) (s : Session) (hrec : s.state = .recording)
    (hshort : now - s.hotkeyPressedTime < minPressDuration) :
    onKeyboardEvent .up now s =
      ({ s with lastReleaseTime := now, state := .idle,
                audioBuffer := [] }, false) := by
  unfold onKeyboardEvent
  have h1 : ¬(now - s.hotkeyPressedTime ≥ minPressDuration) :=
    not_le.mpr hshort
  simp [changeState, hrec, h1]

/-- `C3`: a hotkey press shorter than the 0.1 s minimum while `recording`
clears the capture buffer, moves the state back to `idle` and never
schedules `process_audio`; starting from `idle`, the whole short-press
scenario yields the state sequence idle → recording → idle. -/
theorem c3_short_press :
    (∀ (now : ℚ) (s : Session), s.state = .recording →
      now - s.hotkeyPressedTime < minPressDuration →
      onKeyboardEvent .up now s =
        ({ s with lastReleaseTime := now, state := .idle,
                  audioBuffer := [] }, false)) ∧
    (∀ (t1 t2 : ℚ) (s : Session), s.state = .idle →
      t1 - s.lastReleaseTime > debounceDelay →
      s.modelLoading = false → s.modelLoadFailed = false →
      t2 - t1 < minPressDuration →
      ((onKeyboardEvent .down t1 s).1.state = .recording ∧
       (onKeyboardEvent .up t2 (onKeyboardEvent .down t1 s).1).1.state =
         .idle ∧
       (onKeyboardEvent .up t2 (onKeyboardEvent .down t1 s).1).1.audioBuffer
         = [] ∧
       (onKeyboardEvent .up t2 (onKeyboardEvent .down t1 s).1).2 = false)) := by
  refine ⟨fun now s hrec hshort => onKeyUp_short now s hrec hshort, ?_⟩
  intro t1 t2 s hidle hdeb hml hmf hshort
  rw [onKeyDown_enter t1 s hidle hdeb hml hmf]
  rw [onKeyUp_short t2 _ rfl (by simpa using hshort)]
  exact ⟨rfl, rfl, rfl, rfl⟩


/-- Witness for `c3_short_press` at concrete inputs: a press at t = 1
released at t = 1.05 (50 ms, below the 100 ms minimum). -/
theorem c3_short_press_witness :
    (exampleIdleSession.state = .idle ∧
     (1 : ℚ) - exampleIdleSession.lastReleaseTime > debounceDelay ∧
     exampleIdleSession.modelLoading = false ∧
     exampleIdleSession.modelLoadFailed = false ∧
     (21/20 : ℚ) - 1 < minPressDuration) ∧
    ((onKeyboardEvent .down 1 exampleIdleSession).1.state = .recording ∧
     (onKeyboardEvent .up (21/20)
       (onKeyboardEvent .down 1 exampleIdleSession).1).1.state = .idle ∧
     (onKeyboardEvent .up (21/20)
       (onKeyboardEvent .down 1 exampleIdleSession).1).1.audioBuffer = [] ∧
     (onKeyboardEvent .up (21/20)
       (onKeyboardEvent .down 1 exampleIdleSession).1).2 = false) :=
  ⟨⟨rfl, by norm_num [exampleIdleSession, debounceDelay], rfl, rfl,
    by norm_num [minPressDuration]⟩,
   c3_short_press.2 1 (21/20) exampleIdleSession rfl
     (by norm_num [exampleIdleSession, debounceDelay]) rfl rfl
     (by norm_num [minPressDuration])⟩


/-- `foldr max 0` is non-negative. -/
theorem foldr_max_nonneg (l : List ℚ) : 0 ≤ l.foldr max 0 := by
  induction l with
  | nil => exact le_refl 0
  | cons x xs ih => exact le_trans ih (le_max_right x _)

/-- Every member of a list is bounded by its `foldr max 0`. -/
theorem le_foldr_max (l : List ℚ) (x : ℚ) (hx : x ∈ l) :
    x ≤ l.foldr max 0 := by
  induction l with
  | nil => cases hx
  | cons a as ih =>
    rcases List.mem_cons.mp hx with h | h
    · rw [h]; exact le_max_left a _
    · exact le_trans (ih h) (le_max_right a _)

/-- `foldr max 0` of a list bounded by a non-negative `a` is at most `a`. -/
theorem foldr_max_le (l : List ℚ) (a : ℚ) (ha : 0 ≤ a)
    (h : ∀ x ∈ l, x ≤ a) : l.foldr max 0 ≤ a := by
  induction l with
  | nil => exact ha
  | cons x xs ih =>
    exact max_le (h x (List.mem_cons_self x xs))
      (ih fun y hy => h y (List.mem_cons_of_mem x hy))

/-- Folding `max` from a non-negative seed factors through `foldr max 0`. -/
theorem foldr_max_init (l : List ℚ) (b : ℚ) (hb : 0 ≤ b) :
    l.foldr max b = max b (l.foldr max 0) := by
  induction l with
  | nil => exact (max_eq_left hb).symm
  | cons x xs ih => rw [List.foldr_cons, ih, List.foldr_cons, max_left_comm]

/-- `foldr max 0` over an append is the max of the two folds. -/
theorem foldr_max_append (l1 l2 : List ℚ) :
    (l1 ++ l2).foldr max 0 = max (l2.foldr max 0) (l1.foldr max 0) := by
  rw [List.foldr_append, foldr_max_init l1 _ (foldr_max_nonneg l2)]

/-- Soundness of the backward scan: a hit is the last exceeding index. -/
theorem lastExceedingAux_some (E : List ℚ) (θ : ℚ) :
    ∀ n i, lastExceedingAux E θ n = some i →
      i < n ∧ E.getD i 0 > θ ∧
        ∀ j, i < j → j < n → ¬(E.getD j 0 > θ) := by
  intro n
  induction n with
  | zero => intro i h; cases h
  | succ n ih =>
    intro i h
    simp only [lastExceedingAux] at h
    by_cases hx : E.getD n 0 > θ
    · rw [if_pos hx] at h
      obtain rfl : n = i := Option.some.inj h
      exact ⟨Nat.lt_succ_self _, hx, fun j hj1 hj2 => absurd hj2 (by omega)⟩
    · rw [if_neg hx] at h
      obtain ⟨h1, h2, h3⟩ := ih i h
      refine ⟨Nat.lt_succ_of_lt h1, h2, fun j hj1 hj2 => ?_⟩
      rcases Nat.lt_succ_iff_lt_or_eq.mp hj2 with hj | rfl
      · exact h3 j hj1 hj
      · exact hx

/-- Completeness of the backward scan: no hit means no exceeding index. -/
theorem lastExceedingAux_none (E : List ℚ) (θ : ℚ) :
    ∀ n, lastExceedingAux E θ n = none →
      ∀ j, j < n → ¬(E.getD j 0 > θ) := by
  intro n
  induction n with
  | zero => intro _ j hj; omega
  | succ n ih =>
    intro h j hj
    simp only [lastExceedingAux] at h
    by_cases hx : E.getD n 0 > θ
    · rw [if_pos hx] at h; cases h
    · rw [if_neg hx] at h
      rcases Nat.lt_succ_iff_lt_or_eq.mp hj with hj' | rfl
      · exact ih h j hj'
      · exact hx

/-- The backward scan finds the last exceeding index. -/
theorem lastExceedingAux_eq_some (E : List ℚ) (θ : ℚ) :
    ∀ n i, i < n → E.getD i 0 > θ →
      (∀ j, i < j → j < n → ¬(E.getD j 0 > θ)) →
      lastExceedingAux E θ n = some i := by
  intro n
  induction n with
  | zero => intro i hi; omega
  | succ n ih =>
    intro i hi hex hlast
    by_cases hx : E.getD n 0 > θ
    · have : i = n := by
        by_contra hne
        exact hlast n (by omega) (Nat.lt_succ_self n) hx
      subst this
      simp only [lastExceedingAux]
      rw [if_pos hx]
    · have hi' : i < n := by
        rcases Nat.lt_succ_iff_lt_or_eq.mp hi with h | rfl
        · exact h
        · exact absurd hex hx
      have hrec := ih i hi' hex fun j hj1 hj2 =>
        hlast j hj1 (Nat.lt_succ_of_lt hj2)
      simp only [lastExceedingAux]
      rw [if_neg hx]
      exact hrec

/-- The backward scan misses when no index exceeds. -/
theorem lastExceedingAux_eq_none (E : List ℚ) (θ : ℚ) :
    ∀ n, (∀ j, j < n → ¬(E.getD j 0 > θ)) →
      lastExceedingAux E θ n = none := by
  intro n
  induction n with
  | zero => intro _; rfl
  | succ n ih =>
    intro h
    have hx : ¬(E.getD n 0 > θ) := h n (Nat.lt_succ_self n)
    simp only [lastExceedingAux, if_neg hx]
    exact ih fun j hj => h j (Nat.lt_succ_of_lt hj)

/-- `getD` of a prefix agrees with `getD` of the list below the cut. -/
theorem getD_take (l : List ℚ) (k i : ℕ) (h : i < k) :
    (l.take k).getD i 0 = l.getD i 0 := by
  simp [List.getD_eq_getElem?_getD, List.getElem?_take, h]

/-- Energies are non-negative. -/
theorem energyOf_nonneg (audio : List ℚ) : ∀ x ∈ energyOf audio, 0 ≤ x := by
  intro x hx
  obtain ⟨a, _, rfl⟩ := List.mem_map.mp hx
  exact abs_nonneg a

/-- The energy list has the same length as the audio. -/
theorem energyOf_length (audio : List ℚ) :
    (energyOf audio).length = audio.length := List.length_map audio _

/-- Energy of a prefix is the prefix of the energy. -/
theorem energyOf_take (audio : List ℚ) (k : ℕ) :
    energyOf (audio.take k) = (energyOf audio).take k := by
  unfold energyOf
  exact List.map_take _ _ _

/-- The 5% threshold is non-negative. -/
theorem peakThreshold_nonneg (audio : List ℚ) : 0 ≤ peakThreshold audio :=
  mul_nonneg (foldr_max_nonneg _) (by norm_num)

/-- If index `i < k` exceeds `c` and nothing after `i` does, the peak of the
prefix of length `k` equals the peak of the whole list. -/
theorem foldr_max_take_eq (E : List ℚ) (k i : ℕ) (c : ℚ)
    (hc : 0 ≤ c) (hik : i < k) (hilen : i < E.length)
    (hex : E.getD i 0 > c)
    (habove : ∀ j, i < j → j < E.length → E.getD j 0 ≤ c) :
    (E.take k).foldr max 0 = E.foldr max 0 := by
  have hdrop : ∀ x ∈ E.drop k, x ≤ c := by
    intro x hx
    obtain ⟨j, hj, hx2⟩ := List.mem_iff_getElem.mp hx
    have hjlen : k + j < E.length := by
      have hjl := hj
      simp only [List.length_drop] at hjl
      omega
    have hx3 : (E.drop k).getD j 0 = x := by
      rw [List.getD_eq_getElem _ 0 hj]
      exact hx2
    have hgd : (E.drop k).getD j 0 = E.getD (k + j) 0 := by
      simp [List.getD_eq_getElem?_getD, List.getElem?_drop]
    rw [← hx3, hgd]
    exact habove (k + j) (by omega) hjlen
  have hMsplit : E.foldr max 0 =
      max ((E.drop k).foldr max 0) ((E.take k).foldr max 0) := by
    conv_lhs => rw [← List.take_append_drop k E]
    exact foldr_max_append _ _
  have h1 : (E.drop k).foldr max 0 ≤ c := foldr_max_le _ c hc hdrop
  have h2 : c < (E.take k).foldr max 0 := by
    have hgl : i < (E.take k).length := by
      simp only [List.length_take]
      omega
    have hmem : (E.take k).getD i 0 ∈ E.take k := by
      rw [List.getD_eq_getElem _ 0 hgl]
      exact List.getElem_mem hgl
    have hle := le_foldr_max _ _ hmem
    rw [getD_take E k i hik] at hle
    exact lt_of_lt_of_le hex hle
  rw [hMsplit]
  exact (max_eq_right (le_trans h1 (le_of_lt h2))).symm

/-- If no index of the energy exceeds the 5% threshold, the peak is zero. -/
theorem peak_eq_zero_of_none (audio : List ℚ)
    (h : ∀ j, j < audio.length →
      ¬((energyOf audio).getD j 0 > peakThreshold audio)) :
    (energyOf audio).foldr max 0 = 0 := by
  have hub : ∀ x ∈ energyOf audio, x ≤ peakThreshold audio := by
    intro x hx
    obtain ⟨j, hj, hxe⟩ := List.mem_iff_getElem.mp hx
    have hj' : j < audio.length := by rwa [energyOf_length] at hj
    have hgd : (energyOf audio).getD j 0 = x := by
      rw [List.getD_eq_getElem _ 0 hj, hxe]
    have hnlt := h j hj'
    rw [hgd] at hnlt
    exact not_lt.mp hnlt
  have h0 : 0 ≤ (energyOf audio).foldr max 0 := foldr_max_nonneg _
  have hle : (energyOf audio).foldr max 0 ≤ peakThreshold audio :=
    foldr_max_le _ _ (peakThreshold_nonneg audio) hub
  have hpt : peakThreshold audio =
      (energyOf audio).foldr max 0 * (5/100) := rfl
  rw [hpt] at hle
  linarith

/-- If no index exceeds the threshold, every energy value is zero. -/
theorem energyOf_zero_of_none (audio : List ℚ)
    (h : ∀ j, j < audio.length →
      ¬((energyOf audio).getD j 0 > peakThreshold audio)) :
    ∀ x ∈ energyOf audio, x = 0 := by
  intro x hx
  have h1 := le_foldr_max _ x hx
  rw [peak_eq_zero_of_none audio h] at h1
  exact le_antisymm h1 (energyOf_nonneg audio x hx)

/-- Unfolding `trimSilenceFromEnd` when the backward scan hits at `i`. -/
theorem trimSilenceFromEnd_eq_some (audio : List ℚ) (sr i : ℕ)
    (hne : audio ≠ [])
    (h : lastExceedingAux (energyOf audio) (peakThreshold audio)
      audio.length = some i) :
    trimSilenceFromEnd audio sr =
      audio.take (min (i + sr / 5) audio.length) := by
  unfold trimSilenceFromEnd
  rw [if_neg hne, h]

/-- Unfolding `trimSilenceFromEnd` when the backward scan misses. -/
theorem trimSilenceFromEnd_eq_none (audio : List ℚ) (sr : ℕ)
    (hne : audio ≠ [])
    (h : lastExceedingAux (energyOf audio) (peakThreshold audio)
      audio.length = none) :
    trimSilenceFromEnd audio sr = audio.take (sr / 10) := by
  unfold trimSilenceFromEnd
  rw [if_neg hne, h]

/-- `C4` (amended): for every waveform and every sample rate of at least
5 samples per second — in particular the program's fixed 16000 Hz —
applying `_trim_silence_from_end` to its own output returns that output
unchanged.  (For sample rates below 5 the 0.2 s margin truncates to zero
samples and idempotence fails; see the counterexample.) -/
theorem c4_trim_idempotent_amended (audio : List ℚ) (sr : ℕ)
    (hsr : 5 ≤ sr) :
    trimSilenceFromEnd (trimSilenceFromEnd audio sr) sr =
      trimSilenceFromEnd audio sr := by
  by_cases hne : audio = []
  · subst hne
    simp [trimSilenceFromEnd]
  · rcases hmatch : lastExceedingAux (energyOf audio) (peakThreshold audio)
      audio.length with _ | i
    · have htrim := trimSilenceFromEnd_eq_none audio sr hne hmatch
      have hall := lastExceedingAux_none _ _ _ hmatch
      rw [htrim]
      by_cases hyne : audio.take (sr / 10) = []
      · rw [hyne]
        simp [trimSilenceFromEnd]
      · set y := audio.take (sr / 10) with hy
        have hz : ∀ x ∈ energyOf y, x = 0 := by
          intro x hx
          apply energyOf_zero_of_none audio hall
          rw [hy, energyOf_take] at hx
          exact List.mem_of_mem_take hx
        have hMy : (energyOf y).foldr max 0 = 0 :=
          le_antisymm
            (foldr_max_le _ 0 le_rfl fun x hx => le_of_eq (hz x hx))
            (foldr_max_nonneg _)
        have hty : peakThreshold y = 0 := by
          unfold peakThreshold
          rw [hMy, zero_mul]
        have hnone : lastExceedingAux (energyOf y) (peakThreshold y)
            y.length = none := by
          apply lastExceedingAux_eq_none
          intro j hj
          have hj' : j < (energyOf y).length := by
            rw [energyOf_length]; exact hj
          rw [hty, List.getD_eq_getElem _ 0 hj',
            hz _ (List.getElem_mem hj')]
          exact lt_irrefl 0
        rw [trimSilenceFromEnd_eq_none y sr hyne hnone]
        apply List.take_of_length_le
        rw [hy]
        simp only [List.length_take]
        exact min_le_left _ _
    · obtain ⟨hi, hex, hlast⟩ := lastExceedingAux_some _ _ _ _ hmatch
      have hm1 : 1 ≤ sr / 5 := (Nat.one_le_div_iff (by norm_num)).mpr hsr
      have htrim := trimSilenceFromEnd_eq_some audio sr i hne hmatch
      rw [htrim]
      set k := min (i + sr / 5) audio.length with hk
      have hik : i < k := lt_min (by omega) hi
      have hklen : k ≤ audio.length := min_le_right _ _
      set y := audio.take k with hy
      have hylen : y.length = k := by
        rw [hy]; exact List.length_take_of_le hklen
      have hyne : y ≠ [] := by
        intro h
        rw [h] at hylen
        simp at hylen
        omega
      have hpeak : (energyOf y).foldr max 0 =
          (energyOf audio).foldr max 0 := by
        rw [hy, energyOf_take]
        exact foldr_max_take_eq (energyOf audio) k i (peakThreshold audio)
          (peakThreshold_nonneg audio) hik
          (by rw [energyOf_length]; exact hi) hex
          (fun j hj1 hj2 =>
            not_lt.mp (hlast j hj1 (by rwa [energyOf_length] at hj2)))
      have hth : peakThreshold y = peakThreshold audio := by
        unfold peakThreshold
        rw [hpeak]
      have hsome : lastExceedingAux (energyOf y) (peakThreshold y)
          y.length = some i := by
        apply lastExceedingAux_eq_some
        · rw [hylen]; exact hik
        · rw [hth, hy, energyOf_take, getD_take _ k i hik]
          exact hex
        · intro j hj1 hj2
          rw [hylen] at hj2
          rw [hth, hy, energyOf_take, getD_take _ k j hj2]
          exact hlast j hj1 (by omega)
      rw [trimSilenceFromEnd_eq_some y sr i hyne hsome]
      have hmin : min (i + sr / 5) y.length = y.length := by
        rw [hylen]
        exact min_eq_right (min_le_left _ _)
      rw [hmin]
      simp

/-- Witness for `c4_trim_idempotent_amended` at a concrete waveform and
the program's sample rate. -/
theorem c4_trim_idempotent_amended_witness :
    5 ≤ 16000 ∧
    trimSilenceFromEnd (trimSilenceFromEnd [(1 : ℚ), 0] 16000) 16000 =
      trimSilenceFromEnd [(1 : ℚ), 0] 16000 :=
  ⟨by norm_num, c4_trim_idempotent_amended [(1 : ℚ), 0] 16000 (by norm_num)⟩

/-- Counterexample to `C4` as stated: at sample rate 1 the margin
`int(0.2 * sample_rate)` is zero, so trimming `[1, 1]` keeps only the
samples strictly before the last energetic one, and a second trim shrinks
the result again — trimming is not idempotent for every sample rate. -/
theorem c4_trim_idempotent_counterexample :
    trimSilenceFromEnd (trimSilenceFromEnd [(1 : ℚ), 1] 1) 1 ≠
      trimSilenceFromEnd [(1 : ℚ), 1] 1 := by
  have hn1 : ([(1 : ℚ), 1]) ≠ [] := by simp
  have hn2 : ([(1 : ℚ)]) ≠ [] := by simp
  have h1 : trimSilenceFromEnd [(1 : ℚ), 1] 1 = [1] := by
    norm_num [trimSilenceFromEnd, energyOf, peakThreshold,
      lastExceedingAux, max_def, hn1]
  have h2 : trimSilenceFromEnd [(1 : ℚ)] 1 = [] := by
    norm_num [trimSilenceFromEnd, energyOf, peakThreshold,
      lastExceedingAux, max_def, hn2]
  rw [h1, h2]
  intro h
  cases h

/-- `C5`: for a non-empty waveform, trimming returns the prefix ending
`int(0.2 * sample_rate)` samples (capped at the length) after the last
sample whose magnitude exceeds 5% of the peak magnitude; when no sample
exceeds that threshold it returns the leading `int(sample_rate * 0.1)`
samples; the empty waveform is returned unchanged. -/
theorem c5_trim_characterization (audio : List ℚ) (sr : ℕ)
    (hne : audio ≠ []) :
    trimSilenceFromEnd [] sr = [] ∧
    ((∃ i, i < audio.length ∧ exceedsThreshold audio i ∧
        (∀ j, i < j → j < audio.length → ¬exceedsThreshold audio j) ∧
        trimSilenceFromEnd audio sr =
          audio.take (min (i + sr / 5) audio.length)) ∨
      ((∀ j, j < audio.length → ¬exceedsThreshold audio j) ∧
        trimSilenceFromEnd audio sr = audio.take (sr / 10))) := by
  refine ⟨rfl, ?_⟩
  rcases hmatch : lastExceedingAux (energyOf audio) (peakThreshold audio)
    audio.length with _ | i
  · right
    exact ⟨fun j hj => lastExceedingAux_none _ _ _ hmatch j hj,
      trimSilenceFromEnd_eq_none audio sr hne hmatch⟩
  · left
    obtain ⟨hi, hex, hlast⟩ := lastExceedingAux_some _ _ _ _ hmatch
    exact ⟨i, hi, hex, hlast,
      trimSilenceFromEnd_eq_some audio sr i hne hmatch⟩

/-- Witness for `c5_trim_characterization` at the waveform `[1, 0]` and
sample rate 10. -/
theorem c5_trim_characterization_witness :
    ([(1 : ℚ), 0] ≠ []) ∧
    (trimSilenceFromEnd [] 10 = [] ∧
     ((∃ i, i < ([(1 : ℚ), 0] : List ℚ).length ∧
        exceedsThreshold [(1 : ℚ), 0] i ∧
        (∀ j, i < j → j < ([(1 : ℚ), 0] : List ℚ).length →
          ¬exceedsThreshold [(1 : ℚ), 0] j) ∧
        trimSilenceFromEnd [(1 : ℚ), 0] 10 =
          ([(1 : ℚ), 0] : List ℚ).take
            (min (i + 10 / 5) ([(1 : ℚ), 0] : List ℚ).length)) ∨
      ((∀ j, j < ([(1 : ℚ), 0] : List ℚ).length →
          ¬exceedsThreshold [(1 : ℚ), 0] j) ∧
        trimSilenceFromEnd [(1 : ℚ), 0] 10 =
          ([(1 : ℚ), 0] : List ℚ).take (10 / 10)))) :=
  ⟨by simp, c5_trim_characterization [(1 : ℚ), 0] 10 (by simp)⟩

/-- `C2`: every execution of `process_audio` ends with the session state
`Idle`, whatever the environment (stage failures, raised exceptions); and
when invoked while the state is not `Processing` it logs the warning and
forces `Idle` instead of raising. -/
theorem c2_process_audio_idle (env : PipeEnv) (s : Session) :
    (processAudio env s).1.state = .idle ∧
    (s.state ≠ AppState.processing →
      LogEvent.warnNotProcessing ∈ (processAudio env s).2) := by
  constructor
  · unfold processAudio
    by_cases h : s.state ≠ AppState.processing
    · rw [if_pos h]
      simp [changeState]
    · rw [if_neg h]
  · intro h
    unfold processAudio
    rw [if_pos h]
    simp

/-- Witness for `c2_process_audio_idle`: invoking `process_audio` on an
idle session logs the warning. -/
theorem c2_process_audio_idle_witness :
    (exampleIdleSession.state ≠ AppState.processing) ∧
    LogEvent.warnNotProcessing ∈
      (processAudio ⟨none, none, "", none, .success, false⟩
        exampleIdleSession).2 :=
  ⟨by decide,
   (c2_process_audio_idle ⟨none, none, "", none, .success, false⟩
     exampleIdleSession).2 (by decide)⟩

/-- Running `n` microphone callbacks from a recording session whose buffer
holds at most the limit: the state is preserved, the final buffer length is
the capped sum, and one limit warning is emitted per callback that arrives
while the buffer is full. -/
theorem runCallbacks_spec (blks : List AudioBlock) :
    ∀ s : Session, s.state = .recording →
      s.audioBuffer.length ≤ maxBufferBlocks →
      (runCallbacks blks s).1.audioBuffer.length =
        min (s.audioBuffer.length + blks.length) maxBufferBlocks ∧
      (runCallbacks blks s).2 =
        s.audioBuffer.length + blks.length - maxBufferBlocks := by
  induction blks with
  | nil =>
    intro s hs hlen
    constructor
    · simp only [runCallbacks, List.length_nil]
      omega
    · simp only [runCallbacks, List.length_nil]
      omega
  | cons b bs ih =>
    intro s hs hlen
    by_cases h1 : s.audioBuffer.length < maxBufferBlocks
    · have hcb : audioCallback b s =
          ({ s with audioBuffer := s.audioBuffer ++ [b] }, []) := by
        unfold audioCallback
        rw [if_pos hs, if_pos h1]
      have hrec := ih { s with audioBuffer := s.audioBuffer ++ [b] } hs
        (by simp only [List.length_append, List.length_singleton]; omega)
      obtain ⟨ha, hb⟩ := hrec
      simp only [List.length_append, List.length_singleton] at ha hb
      simp only [runCallbacks, hcb]
      constructor
      · rw [ha]
        simp only [List.length_cons]
        omega
      · rw [List.count_nil, hb]
        simp only [List.length_cons]
        omega
    · have h2 : s.audioBuffer.length = maxBufferBlocks :=
        le_antisymm hlen (not_lt.mp h1)
      have hcb : audioCallback b s = (s, [.warnRecordingLimit]) := by
        unfold audioCallback
        rw [if_pos hs, if_neg h1, if_pos h2]
      obtain ⟨ha, hb⟩ := ih s hs hlen
      simp only [runCallbacks, hcb]
      constructor
      · rw [ha]
        simp only [List.length_cons]
        omega
      · rw [hb]
        have hcount : List.count LogEvent.warnRecordingLimit
            [LogEvent.warnRecordingLimit] = 1 := rfl
        rw [hcount]
        simp only [List.length_cons]
        omega

/-- `C8` (amended): the capture buffer only grows while the state is
exactly `recording`; its length never exceeds the block limit derived from
the configured maximum duration and block size; a callback arriving with a
full buffer drops the block without raising; and the overflow warning is
logged on every callback that arrives while the buffer is full — that is,
`n - maxBufferBlocks` times over an `n`-callback recording — rather than
exactly once. -/
theorem c8_capture_buffer_amended :
    (∀ (blk : AudioBlock) (s : Session), s.state ≠ .recording →
      audioCallback blk s = (s, [])) ∧
    (∀ (blk : AudioBlock) (s : Session),
      s.audioBuffer.length ≤ maxBufferBlocks →
      (audioCallback blk s).1.audioBuffer.length ≤ maxBufferBlocks) ∧
    (∀ (blk : AudioBlock) (s : Session), s.state = .recording →
      s.audioBuffer.length = maxBufferBlocks →
      (audioCallback blk s).1 = s ∧
      (audioCallback blk s).2 = [.warnRecordingLimit]) ∧
    (∀ (blks : List AudioBlock) (s : Session), s.state = .recording →
      s.audioBuffer = [] →
      (runCallbacks blks s).1.audioBuffer.length =
        min blks.length maxBufferBlocks ∧
      (runCallbacks blks s).2 = blks.length - maxBufferBlocks) := by
  refine ⟨?_, ?_, ?_, ?_⟩
  · intro blk s h
    unfold audioCallback
    rw [if_neg h]
  · intro blk s hlen
    unfold audioCallback
    by_cases hs : s.state = AppState.recording
    · rw [if_pos hs]
      by_cases h1 : s.audioBuffer.length < maxBufferBlocks
      · rw [if_pos h1]
        simp only [List.length_append, List.length_singleton]
        omega
      · rw [if_neg h1]
        by_cases h2 : s.audioBuffer.length = maxBufferBlocks
        · rw [if_pos h2]
          exact hlen
        · rw [if_neg h2]
          exact hlen
    · rw [if_neg hs]
      exact hlen
  · intro blk s hs h2
    unfold audioCallback
    rw [if_pos hs, if_neg (by omega), if_pos h2]
    exact ⟨rfl, rfl⟩
  · intro blks s hs hbuf
    have h := runCallbacks_spec blks s hs (by rw [hbuf]; simp)
    rw [hbuf] at h
    simpa using h

set_option maxRecDepth 10000 in
/-- Witness for `c8_capture_buffer_amended`: one block appended to a fresh
recording. -/
theorem c8_capture_buffer_amended_witness :
    (exampleRecordingSession.state = .recording ∧
     exampleRecordingSession.audioBuffer = []) ∧
    ((runCallbacks [([0] : AudioBlock)]
        exampleRecordingSession).1.audioBuffer.length =
       min ([([0] : AudioBlock)] : List AudioBlock).length maxBufferBlocks ∧
     (runCallbacks [([0] : AudioBlock)] exampleRecordingSession).2 =
       ([([0] : AudioBlock)] : List AudioBlock).length - maxBufferBlocks) :=
  ⟨⟨rfl, rfl⟩,
   c8_capture_buffer_amended.2.2.2 [([0] : AudioBlock)]
     exampleRecordingSession rfl rfl⟩

set_option maxRecDepth 10000 in
/-- Counterexample to `C8` as stated: a recording of
`maxBufferBlocks + 2` callbacks logs the overflow warning twice, not
exactly once. -/
theorem c8_warning_counterexample :
    ¬((runCallbacks (List.replicate (maxBufferBlocks + 2) ([] : AudioBlock))
        exampleRecordingSession).2 = 1) := by
  have h := (runCallbacks_spec
    (List.replicate (maxBufferBlocks + 2) ([] : AudioBlock))
    exampleRecordingSession rfl (by simp [exampleRecordingSession])).2
  have hlen : exampleRecordingSession.audioBuffer.length = 0 := rfl
  rw [hlen, List.length_replicate] at h
  rw [h]
  omega

/-- When the player never answers the liveness query, `_verify_connection`
fails for every attempt budget, and its trace holds only connection
attempts, liveness queries and sleeps. -/
theorem verifyConnection_not_responsive (c : SPConfig)
    (h : c.responsive = false) (d : ℚ) :
    ∀ n, (verifyConnection c d n).1 = false ∧
      ∀ e ∈ (verifyConnection c d n).2,
        e = SPEvent.connect ∨ e = SPEvent.liveQuery ∨
          e = SPEvent.sleep d := by
  intro n
  induction n with
  | zero =>
    refine ⟨rfl, ?_⟩
    intro e he
    cases he
  | succ n ih =>
    simp only [verifyConnection]
    by_cases hc : c.connectOk = true
    · rw [if_pos hc, if_neg (by rw [h]; exact Bool.false_ne_true)]
      refine ⟨ih.1, ?_⟩
      intro e he
      simp only [List.cons_append, List.nil_append, List.mem_cons,
        List.mem_append] at he
      rcases he with rfl | rfl | he
      · exact Or.inl rfl
      · exact Or.inr (Or.inl rfl)
      · rcases he with he | he
        · by_cases hn : n ≠ 0
          · rw [if_pos hn] at he
            simp only [List.mem_singleton] at he
            exact Or.inr (Or.inr he)
          · rw [if_neg hn] at he
            cases he
        · exact ih.2 e he
    · rw [if_neg hc]
      refine ⟨ih.1, ?_⟩
      intro e he
      simp only [List.mem_cons] at he
      rcases he with rfl | he
      · exact Or.inl rfl
      · exact ih.2 e he

/-- `C9`: with the manager enabled and not shutting down, the player
unresponsive and absent from the process table, auto-start enabled but the
executable path missing, `ensure_running` logs the missing path and
returns `false` without ever spawning a process (and, being a total
function of its environment, without raising). -/
theorem c9_ensure_running_missing_path (c : SPConfig)
    (hsd : c.shutdown = false) (hav : c.available = true)
    (hen : c.cfgEnabled = true) (hresp : c.responsive = false)
    (hproc : c.processRunning = false) (hauto : c.autoStart = true)
    (hpath : c.soundpadPathExists = false) :
    (ensureRunning c).1 = false ∧
    SPEvent.logMissingPath ∈ (ensureRunning c).2 ∧
    SPEvent.spawnProc ∉ (ensureRunning c).2 := by
  have hv := verifyConnection_not_responsive c hresp (1/2) 1
  have henb : c.enabled = true := by simp [SPConfig.enabled, hav, hen]
  have hrun : ensureRunning c =
      (false, (verifyConnection c (1/2) 1).2 ++ [.logMissingPath]) := by
    unfold ensureRunning
    rw [if_neg (by rw [hsd]; exact Bool.false_ne_true),
      if_neg (by rw [henb]; simp)]
    simp only [hv.1, Bool.false_eq_true, if_false, hproc, hauto, hpath]
    simp
  rw [hrun]
  refine ⟨rfl, by simp, ?_⟩
  intro hmem
  simp only [List.mem_append, List.mem_singleton] at hmem
  rcases hmem with hmem | hmem
  · rcases hv.2 _ hmem with h | h | h <;> exact SPEvent.noConfusion h
  · exact SPEvent.noConfusion hmem

/-- Witness for `c9_ensure_running_missing_path` at a concrete
environment. -/
theorem c9_ensure_running_missing_path_witness :
    (c9SPConfig.shutdown = false ∧ c9SPConfig.available = true ∧
     c9SPConfig.cfgEnabled = true ∧ c9SPConfig.responsive = false ∧
     c9SPConfig.processRunning = false ∧ c9SPConfig.autoStart = true ∧
     c9SPConfig.soundpadPathExists = false) ∧
    ((ensureRunning c9SPConfig).1 = false ∧
     SPEvent.logMissingPath ∈ (ensureRunning c9SPConfig).2 ∧
     SPEvent.spawnProc ∉ (ensureRunning c9SPConfig).2) :=
  ⟨⟨rfl, rfl, rfl, rfl, rfl, rfl, rfl⟩,
   c9_ensure_running_missing_path c9SPConfig rfl rfl rfl rfl rfl rfl rfl⟩

/-- `C6` (code evaluation at the failing input): with the default
`max_retry_attempts = 3` and an audio file that does not exist (so every
attempt fails), `play_audio_file` in synchronous mode performs exactly one
attempt — one force-stop, one pre-playback delay, one synchronous playback
that fails — and returns `False`; the retry loop body returns
unconditionally on its first iteration, so no second attempt and no
between-attempt delay ever happens. -/
theorem c6_single_attempt :
    exampleSPConfig.maxRetryAttempts = 3 ∧
    playAudioFile exampleSPConfig false =
      (.bool false,
        [SPEvent.connect, SPEvent.stopCmd, SPEvent.sleep (1/5)]) := by
  refine ⟨rfl, ?_⟩
  have h5 : ((1 : ℚ)/5) > 0 := by norm_num
  simp [playAudioFile, playLoop, playAudioFileWithRetry, playAudioFileSync,
    stopPlayback, exampleSPConfig, SPConfig.enabled, h5]

/-- `C7` (amended): inside the synchronous playback step
`_play_audio_file_sync` the shutdown flag is checked before any other
step, and with shutdown requested the call returns `false` with no player
interaction at all; the enclosing single-attempt wrapper also returns
`false`, but its best-effort stop of the previous playback and its
pre-playback delay run before that check, so its trace may still hold a
connection attempt, a stop command and a sleep — and nothing else. -/
theorem c7_shutdown_sync_first (c : SPConfig) (h : c.shutdown = true) :
    playAudioFileSync c = (false, []) ∧
    (playAudioFileWithRetry c).1 = false ∧
    (∀ e ∈ (playAudioFileWithRetry c).2,
      e = SPEvent.connect ∨ e = SPEvent.stopCmd ∨
        e = SPEvent.sleep c.playbackDelay) := by
  have hsync : playAudioFileSync c = (false, []) := by
    simp [playAudioFileSync, h]
  refine ⟨hsync, ?_, ?_⟩
  · simp [playAudioFileWithRetry, hsync]
  · intro e he
    simp only [playAudioFileWithRetry, hsync] at he
    by_cases hf : c.forceStopBeforePlay = true <;>
      by_cases hc : c.connectOk = true <;>
        by_cases hd : c.playbackDelay > 0 <;>
          simp [stopPlayback, hf, hc, hd] at he <;>
            tauto

/-- Witness for `c7_shutdown_sync_first` at a concrete environment. -/
theorem c7_shutdown_sync_first_witness :
    c7SPConfig.shutdown = true ∧
    (playAudioFileSync c7SPConfig = (false, []) ∧
     (playAudioFileWithRetry c7SPConfig).1 = false ∧
     (∀ e ∈ (playAudioFileWithRetry c7SPConfig).2,
       e = SPEvent.connect ∨ e = SPEvent.stopCmd ∨
         e = SPEvent.sleep c7SPConfig.playbackDelay)) :=
  ⟨rfl, c7_shutdown_sync_first c7SPConfig rfl⟩

/-- Counterexample to `C7` as stated: with shutdown requested and the
default `force_stop_before_play = True`, the playback call still sends a
stop command to the external player (via a fresh connection) before the
shutdown flag is ever consulted. -/
theorem c7_shutdown_counterexample :
    c7SPConfig.shutdown = true ∧
    SPEvent.stopCmd ∈ (playAudioFileWithRetry c7SPConfig).2 := by
  refine ⟨rfl, ?_⟩
  have h5 : ((1 : ℚ)/5) > 0 := by norm_num
  simp [playAudioFileWithRetry, playAudioFileSync, stopPlayback,
    c7SPConfig, exampleSPConfig, h5]

/-- `C10`: with the manager disabled — config flag off or the
soundpad_control import failed — `play_audio_file` returns the plain
Boolean `False` (never a future, even in async mode) for every async mode,
with no interaction with the external player. -/
theorem c10_disabled_play (c : SPConfig) (asyncMode : Bool)
    (h : c.available = false ∨ c.cfgEnabled = false) :
    playAudioFile c asyncMode = (.bool false, []) := by
  have he : c.enabled = false := by
    rcases h with h | h <;> simp [SPConfig.enabled, h]
  simp [playAudioFile, he]

/-- Witness for `c10_disabled_play`: import failed, async mode requested,
yet the result is the plain Boolean `False` with an empty trace. -/
theorem c10_disabled_play_witness :
    (c10SPConfig.available = false ∨ c10SPConfig.cfgEnabled = false) ∧
    playAudioFile c10SPConfig true = (.bool false, []) :=
  ⟨Or.inl rfl, c10_disabled_play c10SPConfig true (Or.inl rfl)⟩

end VoiceTranslator
